import Mathlib

/-!
# Verification of `aider-cli.py`

A shallow embedding of the pure logic of `aider-cli.py` (an interactive
file picker that lists git-tracked files, filters them against skip-lists,
sorts them, hands them to `fzf`, and assembles an `aider` command line),
together with theorems settling the specification's claims.

Python strings are embedded as Lean `String`s, but every operation the
program performs on them (`split('/')`, `endswith`, `startswith`,
`os.path.basename`, `lower`, `fnmatch.fnmatch`, lexicographic comparison)
is reimplemented structurally over the underlying character lists so that
all definitions evaluate inside the kernel.  Calls to external processes
(`git`, `fzf`, `aider`) and to the filesystem (`os.path.isdir`, `os.walk`,
`os.path.relpath`) are parameters of the embedded functions.
-/

namespace AiderCli

/-! ## Python string primitives -/

/-- Split a character list at every occurrence of `sep`, keeping empty
groups, as Python `str.split(sep)` does for a one-character separator:
`split '/' "b/" = ["b", ""]`, `split '/' "" = [""]`. -/
def splitOnChar (sep : Char) : List Char → List (List Char)
  | [] => [[]]
  | c :: rest =>
    let groups := splitOnChar sep rest
    if c = sep then [] :: groups
    else
      match groups with
      | [] => [[c]]
      | g :: gs => (c :: g) :: gs

/-- Python `file.split('/')`. -/
def pySplitSlash (s : String) : List String :=
  (splitOnChar '/' s.data).map String.mk

/-- Python `file.endswith('/')`. -/
def endsWithSlash (s : String) : Bool :=
  s.data.getLast? == some '/'

/-- Python `s.startswith(prefix)`. -/
def pyStartsWith (s pre : String) : Bool :=
  pre.data.isPrefixOf s.data

/-- Python `s.endswith(suffix)`. -/
def pyEndsWith (s suffix : String) : Bool :=
  suffix.data.isSuffixOf s.data

/-- Python `s.lower()` (ASCII case folding; every string this program
compares is ASCII). -/
def pyLower (s : String) : String :=
  String.mk (s.data.map Char.toLower)

/-- Python `os.path.basename`: everything after the last `'/'`
(`basename "b/" = ""`, `basename "a/b" = "b"`). -/
def basename (s : String) : String :=
  String.mk ((splitOnChar '/' s.data).getLastD [])

/-- Strict code-point lexicographic order on character lists: Python's
`<` on strings. -/
def charsLtb : List Char → List Char → Bool
  | [], [] => false
  | [], _ :: _ => true
  | _ :: _, [] => false
  | a :: as, b :: bs => if a < b then true else if b < a then false else charsLtb as bs

/-- Python `a < b` on strings. -/
def strLtb (a b : String) : Bool :=
  charsLtb a.data b.data

/-- `fnmatch`-style glob matching of `name` against `pattern`: `*` matches
any character sequence, `?` any single character, everything else matches
literally.  (Character classes `[...]` are not modelled: none of the
program's configured patterns uses them.)  Structural recursion on the
pattern; a `*` tries every suffix of the name. -/
def globMatch : List Char → List Char → Bool
  | [], name => name.isEmpty
  | '*' :: ps, name => name.tails.any fun suffix => globMatch ps suffix
  | '?' :: ps, name =>
    match name with
    | [] => false
    | _ :: rest => globMatch ps rest
  | p :: ps, name =>
    match name with
    | [] => false
    | c :: rest => p == c && globMatch ps rest

/-- Python `fnmatch.fnmatch(name, pattern)` (POSIX case: no case
normalisation). -/
def fnmatch (name pattern : String) : Bool :=
  globMatch pattern.data name.data

/-! ## The skip-lists (module-level constants of the source) -/

def CACHE_FILES : List String :=
  ["*.pyc", "*.class", "*.o", "*.obj", "*.dll", "*.exe", "*.so", "*.cache",
   "*.swp", "*~"]

def CACHE_DIRS : List String :=
  ["__pycache__", "node_modules", "target", "build", "dist", ".cache",
   ".pytest_cache", "*.egg-info", "vendor", ".gradle"]

def SKIP_FILES : List String :=
  ["__init__.py", "aider-cli.py", "aider-cli.sh", ".aider.chat.history.md",
   ".aider.conf.yml", ".aider.input..aider.input.history",
   ".aider.tags..aider.tags.cache.v3/", ".codeiumignore", "README.md",
   "ARCHITECTURE.md"] ++ CACHE_FILES

def SKIP_DIRS : List String :=
  [".git/", "config/", "docs/", "input/", "output/", "markdowns/"] ++ CACHE_DIRS

/-! ## `filter_files` -/

/-- The nested predicate `should_keep` of `filter_files`: a directory
entry (trailing `/`) is kept unless some skip-dir is a prefix of it; any
other path is dropped when its basename starts with `.` or matches one of
the skip patterns. -/
def should_keep (skip_patterns skip_dirs : List String) (file : String) : Bool :=
  if endsWithSlash file then
    skip_dirs.all fun dir => !(pyStartsWith file dir)
  else if pyStartsWith (basename file) "." then
    false
  else
    skip_patterns.all fun pattern => !(fnmatch (basename file) pattern)

/-- `filter_files(files, skip_patterns, skip_dirs)`. -/
def filter_files (files skip_patterns skip_dirs : List String) : List String :=
  files.filter (should_keep skip_patterns skip_dirs)

/-! ## `sort_files` -/

/-- The sort key of `sort_files`: `(len(parts), not is_dir, parent-join,
last-part lowered)`.  Python's `bool` is ordered `False < True`, embedded
here as `0 < 1`. -/
def file_key (file : String) : Nat × Nat × String × String :=
  let parts := pySplitSlash file
  let is_dir := endsWithSlash file
  (parts.length,
   if is_dir then 0 else 1,
   String.join (parts.dropLast.map fun p => p ++ "/"),
   pyLower (parts.getLastD ""))

/-- One step of lexicographic tuple comparison on a `Nat` component. -/
def natLex (a b : Nat) (rest : Bool) : Bool :=
  if a < b then true else if b < a then false else rest

/-- One step of lexicographic tuple comparison on a string component. -/
def strLex (a b : String) (rest : Bool) : Bool :=
  if strLtb a b then true else if strLtb b a then false else rest

/-- Python's `<=` on the 4-tuples produced by `file_key`. -/
def keyLE (x y : Nat × Nat × String × String) : Bool :=
  natLex x.1 y.1 (natLex x.2.1 y.2.1 (strLex x.2.2.1 y.2.2.1 (strLex x.2.2.2 y.2.2.2 true)))

/-- The total preorder `sorted(files, key=file_key)` sorts by. -/
def fileLE (a b : String) : Prop :=
  keyLE (file_key a) (file_key b) = true

instance : DecidableRel fileLE := fun _ _ =>
  inferInstanceAs (Decidable (_ = true))

/-- `sort_files(files)`: Python's stable `sorted` with key `file_key`,
embedded as (stable) insertion sort by `fileLE`. -/
def sort_files (files : List String) : List String :=
  List.insertionSort fileLE files

/-! ## `get_git_files` -/

/-- The key `lambda x: (not x.endswith('/'), x.lower())` used by
`get_git_files` when sorting the listing. -/
def git_ls_key (x : String) : Nat × String :=
  (if endsWithSlash x then 0 else 1, pyLower x)

/-- Comparison by `git_ls_key`. -/
def gitLE (a b : String) : Prop :=
  natLex (git_ls_key a).1 (git_ls_key b).1
    (strLex (git_ls_key a).2 (git_ls_key b).2 true) = true

instance : DecidableRel gitLE := fun _ _ =>
  inferInstanceAs (Decidable (_ = true))

/-- The synthetic top-level directory entry contributed by one listed
path: `parts[0] + "/"` when the path has more than one segment. -/
def topDirOf (file : String) : Option String :=
  let parts := pySplitSlash file
  if 1 < parts.length then some (parts.getD 0 "" ++ "/") else none

/-- The `top_dirs` set of `get_git_files`, as a duplicate-free list. -/
def top_dirs (files : List String) : List String :=
  (files.filterMap topDirOf).dedup

/-- The pure core of `get_git_files`: add the synthetic top-level
directory entries and sort by `git_ls_key`. -/
def get_git_files_entries (files : List String) : List String :=
  List.insertionSort gitLE (top_dirs files ++ files)

/-- Outcome of running `git ls-files`: its stdout lines, or a raised
`CalledProcessError` carrying a message. -/
inductive GitListing where
  | ok (files : List String)
  | error (message : String)
  deriving DecidableEq

/-- Result of a function that either produces a value or prints a line to
stderr and calls `sys.exit(code)`. -/
inductive ListResult where
  | entries (entries : List String)
  | exit (stderrLine : String) (code : Nat)
  deriving DecidableEq

/-- `get_git_files`, parameterised by the git listing outcome: on success
return the sorted entries, on `CalledProcessError` print to stderr and
`sys.exit(1)`. -/
def get_git_files (listing : GitListing) : ListResult :=
  match listing with
  | .ok files => .entries (get_git_files_entries files)
  | .error msg => .exit ("Error retrieving Git files: " ++ msg) 1

/-! ## `interactive_file_selection` -/

/-- A Python whitespace character (the set `str.strip()` removes, ASCII
part). -/
def isPyWhitespace (c : Char) : Bool :=
  c == ' ' || c == '\t' || c == '\n' || c == '\r' || c == '\x0b' || c == '\x0c'

/-- Python `s.strip()`. -/
def pyStrip (s : String) : String :=
  String.mk (((s.data.dropWhile isPyWhitespace).reverse.dropWhile isPyWhitespace).reverse)

/-- Python `os.path.join(a, b)` (POSIX, two arguments). -/
def pyJoin (a b : String) : String :=
  if pyStartsWith b "/" then b
  else if a == "" || endsWithSlash a then a ++ b
  else a ++ "/" ++ b

/-- Python `sorted(set(l))` on strings: deduplicate, then sort by the
plain string order. -/
def strLE (a b : String) : Prop :=
  strLex a b true = true

instance : DecidableRel strLE := fun _ _ =>
  inferInstanceAs (Decidable (_ = true))

def py_sorted_set (l : List String) : List String :=
  List.insertionSort strLE l.dedup

/-- The filesystem facts `interactive_file_selection` consults while
post-processing the fzf selection: `os.path.isdir`, `os.walk` (pairs of a
visited directory and the filenames in it, in visit order), and
`os.path.relpath` (which depends on the process working directory, hence
abstract). -/
structure Env where
  isDir : String → Bool
  walk : String → List (String × List String)
  relpath : String → String → String

/-- Outcome of `subprocess.run(fzf_command, ...)`: a completed process
with its exit status and captured stdout, or an exception (e.g. the
binary is missing). -/
inductive FzfResult where
  | ran (returncode : Int) (stdout : String)
  | raised (message : String)
  deriving DecidableEq

/-- Result of the selection step: a returned list, or a stderr line
followed by `sys.exit(code)`. -/
inductive SelectionResult where
  | selection (files : List String)
  | exit (stderrLine : String) (code : Nat)
  deriving DecidableEq

/-- `interactive_file_selection`, parameterised by the filesystem, the git
root, and the fzf outcome.  On exit status 0 the stdout lines are
post-processed (directories expanded to the `.py` files `os.walk` finds,
plain files made relative) and returned as `sorted(set(...))`; on a
non-zero status the selection is `[]`; when `subprocess.run` raises, the
error is printed and the process exits with status 1. -/
def interactive_file_selection (env : Env) (gitRoot : String)
    (files : List String) (fzf : FzfResult) : SelectionResult :=
  match fzf with
  | .raised msg => .exit ("Error running fzf: " ++ msg) 1
  | .ran returncode stdout =>
    if returncode = 0 then
      let selected := (splitOnChar '\n' (pyStrip stdout).data).map String.mk
      let final_files := selected.flatMap fun item =>
        if env.isDir item then
          (env.walk item).flatMap fun entry =>
            (entry.2.filter fun filename => pyEndsWith filename ".py").map fun filename =>
              env.relpath (pyJoin entry.1 filename) gitRoot
        else
          [env.relpath item gitRoot]
      .selection (py_sorted_set final_files)
    else
      .selection []

/-- An inert filesystem: no directories, empty walks, `relpath` the
identity on the path.  Used to instantiate theorems at concrete inputs. -/
def trivialEnv : Env :=
  ⟨fun _ => false, fun _ => [], fun p _ => p⟩

/-! ## The command-assembly tail of `main` -/

/-- What the tail of `main` does after directory expansion: either the
early `sys.exit(0)` for an empty list, or the displayed command string
together with the command that is executed when the user confirms. -/
inductive MainResult where
  | exitNoFiles (message : String) (code : Nat)
  | prompt (displayed : String) (executed : Option (List String))
  deriving DecidableEq

/-- The `aider_command` accumulation loop of `main`. -/
def build_aider_command (final_files : List String) : List String :=
  final_files.foldl (fun acc f => acc ++ ["--file", f]) ["aider"]

/-- The tail of `main`: empty list ⇒ message and `sys.exit(0)`; otherwise
display `' '.join(aider_command)` and run the command iff the lowercased
answer equals `"yes"`. -/
def main_confirm_step (final_files : List String) (answer : String) : MainResult :=
  if final_files.isEmpty then
    .exitNoFiles "No files selected. Exiting." 0
  else
    .prompt (" ".intercalate (build_aider_command final_files))
      (if pyLower answer = "yes" then some (build_aider_command final_files) else none)

/-- Modelled from the spec's words: the "basename (final path segment)" of
an entry, reading a directory entry's trailing separator as the tag the
spec's data model describes ("directory denoted by trailing separator")
rather than as an extra empty segment.  Used only to state what the claims
assert about directory entries. -/
def specFinalSegment (path : String) : String :=
  if endsWithSlash path then basename (String.mk path.data.dropLast) else basename path

/-! ## Order-theoretic facts about the sort keys -/

theorem charsLtb_irrefl : ∀ l : List Char, charsLtb l l = false
  | [] => rfl
  | c :: cs => by simp [charsLtb, lt_irrefl, charsLtb_irrefl cs]

theorem charsLtb_cons (x y : Char) (xs ys : List Char) :
    charsLtb (x :: xs) (y :: ys) = true ↔ x < y ∨ x = y ∧ charsLtb xs ys = true := by
  show (if x < y then true else if y < x then false else charsLtb xs ys) = true ↔ _
  rcases lt_trichotomy x y with h | h | h
  · simp [h]
  · subst h
    simp [lt_irrefl]
  · simp [h, h.not_lt, h.ne']

theorem charsLtb_trans :
    ∀ a b c : List Char, charsLtb a b = true → charsLtb b c = true →
      charsLtb a c = true
  | a, [], _, hab, _ => by cases a <;> simp [charsLtb] at hab
  | _, _ :: _, [], _, hbc => by simp [charsLtb] at hbc
  | [], _ :: _, _ :: _, _, _ => by simp [charsLtb]
  | x :: xs, y :: ys, z :: zs, hab, hbc => by
    rcases (charsLtb_cons x y xs ys).1 hab with h₁ | ⟨h₁, h₁'⟩ <;>
      rcases (charsLtb_cons y z ys zs).1 hbc with h₂ | ⟨h₂, h₂'⟩
    · exact (charsLtb_cons x z xs zs).2 (Or.inl (h₁.trans h₂))
    · exact (charsLtb_cons x z xs zs).2 (Or.inl (h₂ ▸ h₁))
    · exact (charsLtb_cons x z xs zs).2 (Or.inl (h₁ ▸ h₂))
    · exact (charsLtb_cons x z xs zs).2
        (Or.inr ⟨h₁.trans h₂, charsLtb_trans xs ys zs h₁' h₂'⟩)

theorem charsLtb_trichotomy :
    ∀ a b : List Char, charsLtb a b = true ∨ a = b ∨ charsLtb b a = true
  | [], [] => Or.inr (Or.inl rfl)
  | [], _ :: _ => Or.inl (by simp [charsLtb])
  | _ :: _, [] => Or.inr (Or.inr (by simp [charsLtb]))
  | x :: xs, y :: ys => by
    rcases lt_trichotomy x y with h | h | h
    · exact Or.inl ((charsLtb_cons x y xs ys).2 (Or.inl h))
    · rcases charsLtb_trichotomy xs ys with h' | h' | h'
      · exact Or.inl ((charsLtb_cons x y xs ys).2 (Or.inr ⟨h, h'⟩))
      · exact Or.inr (Or.inl (by rw [h, h']))
      · exact Or.inr (Or.inr ((charsLtb_cons y x ys xs).2 (Or.inr ⟨h.symm, h'⟩)))
    · exact Or.inr (Or.inr ((charsLtb_cons y x ys xs).2 (Or.inl h)))

theorem strLtb_irrefl (a : String) : strLtb a a = false :=
  charsLtb_irrefl a.data

theorem strLtb_trans {a b c : String} (h₁ : strLtb a b = true)
    (h₂ : strLtb b c = true) : strLtb a c = true :=
  charsLtb_trans _ _ _ h₁ h₂

theorem strLtb_trichotomy (a b : String) :
    strLtb a b = true ∨ a = b ∨ strLtb b a = true := by
  rcases charsLtb_trichotomy a.data b.data with h | h | h
  · exact Or.inl h
  · exact Or.inr (Or.inl (congrArg String.mk h))
  · exact Or.inr (Or.inr h)

theorem strLtb_asymm {a b : String} (h₁ : strLtb a b = true)
    (h₂ : strLtb b a = true) : False := by
  have h := strLtb_trans h₁ h₂
  rw [strLtb_irrefl] at h
  cases h

theorem strLtb_false_of_lt {a b : String} (h : strLtb a b = true) :
    strLtb b a = false := by
  cases h' : strLtb b a
  · rfl
  · exact absurd (strLtb_asymm h h') not_false

theorem natLex_total {r₁ r₂ : Bool} (a b : Nat) (h : r₁ = true ∨ r₂ = true) :
    natLex a b r₁ = true ∨ natLex b a r₂ = true := by
  unfold natLex
  rcases lt_trichotomy a b with hab | hab | hab
  · exact Or.inl (by simp [hab])
  · subst hab
    simpa [lt_irrefl] using h
  · exact Or.inr (by simp [hab])

theorem natLex_trans {r₁ r₂ r₃ : Bool} (a b c : Nat)
    (h : r₁ = true → r₂ = true → r₃ = true) :
    natLex a b r₁ = true → natLex b c r₂ = true → natLex a c r₃ = true := by
  unfold natLex
  intro h₁ h₂
  rcases lt_trichotomy a b with hab | hab | hab <;>
    rcases lt_trichotomy b c with hbc | hbc | hbc
  · simp [hab.trans hbc]
  · subst hbc; simp [hab]
  · simp [hbc, hbc.asymm] at h₂
  · subst hab; simp [hbc]
  · subst hab; subst hbc
    simp only [lt_irrefl, if_false] at h₁ h₂ ⊢
    exact h h₁ h₂
  · subst hab; simp [hbc, hbc.asymm] at h₂
  · simp [hab, hab.asymm] at h₁
  · simp [hab, hab.asymm] at h₁
  · simp [hab, hab.asymm] at h₁

theorem strLex_total {r₁ r₂ : Bool} (a b : String) (h : r₁ = true ∨ r₂ = true) :
    strLex a b r₁ = true ∨ strLex b a r₂ = true := by
  unfold strLex
  rcases strLtb_trichotomy a b with hab | hab | hab
  · exact Or.inl (by simp [hab])
  · subst hab
    simpa [strLtb_irrefl] using h
  · exact Or.inr (by simp [hab])

theorem strLex_trans {r₁ r₂ r₃ : Bool} (a b c : String)
    (h : r₁ = true → r₂ = true → r₃ = true) :
    strLex a b r₁ = true → strLex b c r₂ = true → strLex a c r₃ = true := by
  unfold strLex
  intro h₁ h₂
  rcases strLtb_trichotomy a b with hab | hab | hab <;>
    rcases strLtb_trichotomy b c with hbc | hbc | hbc
  · simp [strLtb_trans hab hbc]
  · subst hbc; simp [hab]
  · simp [hbc, strLtb_false_of_lt hbc] at h₂
  · subst hab; simp [hbc]
  · subst hab; subst hbc
    simp only [strLtb_irrefl, if_false] at h₁ h₂ ⊢
    exact h h₁ h₂
  · subst hab; simp [hbc, strLtb_false_of_lt hbc] at h₂
  · simp [hab, strLtb_false_of_lt hab] at h₁
  · simp [hab, strLtb_false_of_lt hab] at h₁
  · simp [hab, strLtb_false_of_lt hab] at h₁

theorem keyLE_total (x y : Nat × Nat × String × String) :
    keyLE x y = true ∨ keyLE y x = true :=
  natLex_total _ _ (natLex_total _ _ (strLex_total _ _ (strLex_total _ _ (Or.inl rfl))))

theorem keyLE_trans (x y z : Nat × Nat × String × String) :
    keyLE x y = true → keyLE y z = true → keyLE x z = true :=
  natLex_trans _ _ _ (natLex_trans _ _ _ (strLex_trans _ _ _ (strLex_trans _ _ _
    fun _ _ => rfl)))

instance : IsTotal String fileLE :=
  ⟨fun a b => keyLE_total (file_key a) (file_key b)⟩

instance : IsTrans String fileLE :=
  ⟨fun a b c => keyLE_trans (file_key a) (file_key b) (file_key c)⟩

/-- A key whose second component marks a file is never `keyLE`-below a key
with the same first component whose second component marks a directory. -/
theorem keyLE_file_dir_false (n : Nat) (p₁ b₁ p₂ b₂ : String) :
    keyLE (n, 1, p₁, b₁) (n, 0, p₂, b₂) = false := by
  simp [keyLE, natLex, lt_irrefl]

end AiderCli

namespace AiderCli

-- Sanity checks of the embedding on concrete inputs (mirroring runs of
-- the Python source).
example : pySplitSlash "b/" = ["b", ""] := by decide
example : basename "a/b" = "b" := by decide
example : basename ".hidden" = ".hidden" := by decide
example : fnmatch "x.pyc" "*.pyc" = true := by decide
example : fnmatch "a.py" "*.pyc" = false := by decide
example : fnmatch "backup~" "*~" = true := by decide
example : sort_files ["b/", "a.py"] = ["a.py", "b/"] := by decide
example :
    get_git_files_entries ["a.py", "b/__init__.py", "b/x.py", "node_modules/y.js"] =
      ["b/", "node_modules/", "a.py", "b/__init__.py", "b/x.py", "node_modules/y.js"] := by
  decide
example :
    filter_files ["b/", "node_modules/", "a.py", "b/__init__.py", "b/x.py",
        "node_modules/y.js"] SKIP_FILES SKIP_DIRS =
      ["b/", "a.py", "b/x.py", "node_modules/y.js"] := by decide
example :
    sort_files ["b/", "a.py", "b/x.py", "node_modules/y.js"] =
      ["a.py", "b/", "b/x.py", "node_modules/y.js"] := by decide

/-! ## Claim C1: directory/file order in `sort_files` -/

/-- C1 fails on the code: `sort_files` keys a directory entry by its
segment count *including* the empty segment after the trailing `/`, so the
top-level directory `b/` (2 segments) sorts *after* the top-level file
`a.py` (1 segment) although both share the root as parent; and on the
spec's end-to-end example the pipeline keeps `b/x.py` and
`node_modules/y.js`, so the result is not `[b/, a.py]`. -/
theorem sort_files_same_parent_counterexample :
    sort_files ["b/", "a.py"] = ["a.py", "b/"] ∧
    sort_files (filter_files
        (get_git_files_entries ["a.py", "b/__init__.py", "b/x.py", "node_modules/y.js"])
        SKIP_FILES SKIP_DIRS) ≠ ["b/", "a.py"] := by
  decide

/-- C1 (amended): in `sort_files`' output, among entries whose `'/'`-split
segment lists have equal length (a directory's trailing separator
contributing one empty segment), every directory entry precedes every file
entry — i.e. whatever precedes such a directory entry is itself a
directory entry; and on the spec's end-to-end example, filtering followed
by sorting yields `[a.py, b/, b/x.py, node_modules/y.js]`. -/
theorem sort_files_dirs_first_at_equal_depth :
    (∀ (l : List String) (i j : Nat) (x y : String), i < j →
      (sort_files l)[i]? = some x → (sort_files l)[j]? = some y →
      (pySplitSlash x).length = (pySplitSlash y).length →
      endsWithSlash y = true → endsWithSlash x = true) ∧
    sort_files (filter_files
        (get_git_files_entries ["a.py", "b/__init__.py", "b/x.py", "node_modules/y.js"])
        SKIP_FILES SKIP_DIRS) = ["a.py", "b/", "b/x.py", "node_modules/y.js"] := by
  constructor
  · intro l i j x y hij hx hy hlen hy_dir
    obtain ⟨hi, hx'⟩ := List.getElem?_eq_some.mp hx
    obtain ⟨hj, hy'⟩ := List.getElem?_eq_some.mp hy
    have hsorted : List.Sorted fileLE (sort_files l) :=
      List.sorted_insertionSort fileLE l
    have hrel : fileLE x y := by
      have h := hsorted.rel_get_of_lt (a := ⟨i, hi⟩) (b := ⟨j, hj⟩)
        (Fin.mk_lt_mk.mpr hij)
      simpa [List.get_eq_getElem, hx', hy'] using h
    by_contra hcon
    rw [Bool.not_eq_true] at hcon
    have hkey : keyLE (file_key x) (file_key y) = true := hrel
    have ex : file_key x = ((pySplitSlash x).length, 1,
        String.join ((pySplitSlash x).dropLast.map fun p => p ++ "/"),
        pyLower ((pySplitSlash x).getLastD "")) := by
      simp [file_key, hcon]
    have ey : file_key y = ((pySplitSlash y).length, 0,
        String.join ((pySplitSlash y).dropLast.map fun p => p ++ "/"),
        pyLower ((pySplitSlash y).getLastD "")) := by
      simp [file_key, hy_dir]
    rw [ex, ey, hlen, keyLE_file_dir_false] at hkey
    cases hkey
  · decide

/-- Witness for C1 (amended), at the concrete sorted list
`sort_files ["a/", "c/"] = ["a/", "c/"]`. -/
theorem sort_files_dirs_first_at_equal_depth_witness :
    endsWithSlash "a/" = true :=
  sort_files_dirs_first_at_equal_depth.1 ["a/", "c/"] 0 1 "a/" "c/"
    (by decide) (by decide) (by decide) (by decide) (by decide)

/-! ## Claims C8 and C9: `sort_files` is idempotent and a permutation -/

/-- C8: `sort_files` is deterministic (it is a function) and idempotent:
re-sorting an already-sorted list returns it unchanged. -/
theorem sort_files_idempotent (files : List String) :
    sort_files (sort_files files) = sort_files files :=
  (List.sorted_insertionSort fileLE files).insertionSort_eq

/-- C9: `sort_files` neither adds, drops, nor rewrites entries: its output
is a permutation of its input, and every path occurs in the output exactly
as often as in the input. -/
theorem sort_files_permutation (files : List String) :
    (sort_files files).Perm files ∧
    ∀ s : String, (sort_files files).count s = files.count s :=
  ⟨List.perm_insertionSort fileLE files,
   fun s => (List.perm_insertionSort fileLE files).count_eq s⟩

/-! ## Claims C2 and C3: the filter's dot rule and skip patterns -/

/-- C2 fails on the code: a directory entry is only ever tested against
the skip-dir prefixes, never against the leading-dot rule, so a dot-named
directory entry survives the filter — with the configured skip-lists
(`.github/`) as well as with empty ones (`.hidden/`). -/
theorem filter_files_dot_directory_counterexample :
    pyStartsWith (specFinalSegment ".github/") "." = true ∧
    filter_files [".github/"] SKIP_FILES SKIP_DIRS = [".github/"] ∧
    pyStartsWith (specFinalSegment ".hidden/") "." = true ∧
    filter_files [".hidden/"] [] [] = [".hidden/"] := by
  decide

/-- C2 (amended): for every input list and every pair of skip-lists, the
filter removes any *non-directory* path (no trailing separator) whose
basename starts with a dot; directory entries are exempt from the dot rule
and are removed only via the skip-dir prefixes. -/
theorem filter_files_removes_dot_basenames :
    ∀ (files skip_patterns skip_dirs : List String) (f : String),
      f ∈ filter_files files skip_patterns skip_dirs →
      endsWithSlash f = false →
      pyStartsWith (basename f) "." = false := by
  intro files sp sd f hf hdir
  have hk : should_keep sp sd f = true := (List.mem_filter.mp hf).2
  cases hdot : pyStartsWith (basename f) "."
  · rfl
  · exfalso
    simp [should_keep, hdir, hdot] at hk

/-- Witness for C2 (amended): `a.py` survives the empty skip-lists and its
basename does not start with a dot. -/
theorem filter_files_removes_dot_basenames_witness :
    pyStartsWith (basename "a.py") "." = false :=
  filter_files_removes_dot_basenames ["a.py"] [] [] "a.py" (by decide) (by decide)

/-- C3 fails on the code for directory entries: `__init__.py` is a
configured skip pattern and matches the final path segment of the
directory entry `__init__.py/`, yet that entry survives the filter,
because directory entries are never tested against the skip patterns. -/
theorem filter_files_skip_pattern_directory_counterexample :
    "__init__.py" ∈ SKIP_FILES ∧
    fnmatch (specFinalSegment "__init__.py/") "__init__.py" = true ∧
    filter_files ["__init__.py/"] SKIP_FILES SKIP_DIRS = ["__init__.py/"] := by
  decide

/-- C3 (amended): for every input list and skip-lists, the filter's output
never contains a *non-directory* path (no trailing separator) whose
basename matches one of the skip glob patterns; in particular this holds
for the configured `SKIP_FILES`. -/
theorem filter_files_no_skip_pattern_match :
    ∀ (files skip_patterns skip_dirs : List String) (f p : String),
      f ∈ filter_files files skip_patterns skip_dirs →
      endsWithSlash f = false →
      p ∈ skip_patterns →
      fnmatch (basename f) p = false := by
  intro files sp sd f p hf hdir hp
  have hk : should_keep sp sd f = true := (List.mem_filter.mp hf).2
  cases hdot : pyStartsWith (basename f) "."
  · have hall : sp.all (fun pattern => !(fnmatch (basename f) pattern)) = true := by
      simpa [should_keep, hdir, hdot] using hk
    have hone := List.all_eq_true.mp hall p hp
    simpa using hone
  · exfalso
    simp [should_keep, hdir, hdot] at hk

/-- Witness for C3 (amended): `a.py` survives the configured skip-lists
and does not match the configured pattern `__init__.py`. -/
theorem filter_files_no_skip_pattern_match_witness :
    fnmatch (basename "a.py") "__init__.py" = false :=
  filter_files_no_skip_pattern_match ["a.py"] SKIP_FILES SKIP_DIRS "a.py" "__init__.py"
    (by decide) (by decide) (by decide)

/-! ## Claim C10: the filter only removes, and is idempotent -/

/-- C10: for every input and skip-lists, the filter's output is a
subsequence of its input (relative order preserved, only removals), and
filtering an already-filtered list with the same skip-lists returns it
unchanged. -/
theorem filter_files_sublist_idempotent :
    ∀ files skip_patterns skip_dirs : List String,
      (filter_files files skip_patterns skip_dirs).Sublist files ∧
      filter_files (filter_files files skip_patterns skip_dirs) skip_patterns skip_dirs =
        filter_files files skip_patterns skip_dirs :=
  fun files _ _ =>
    ⟨List.filter_sublist files,
     List.filter_eq_self.mpr fun _ ha => (List.mem_filter.mp ha).2⟩

/-! ## Claim C5: git listing failure is propagated -/

/-- C5: whenever the `git ls-files` call errors, `get_git_files` prints an
error line to stderr and terminates the program with a non-zero exit
status (the source prints `Error retrieving Git files: ...` and calls
`sys.exit(1)`). -/
theorem get_git_files_error_exits :
    ∀ msg : String, ∃ (errLine : String) (code : Nat),
      get_git_files (.error msg) = .exit errLine code ∧ code ≠ 0 :=
  fun msg => ⟨"Error retrieving Git files: " ++ msg, 1, rfl, one_ne_zero⟩


/-! ## Claim C7: the listing adds exactly the top-level directories -/

/-- C7: for every git listing, the entry list is a permutation of the
listed paths plus the synthetic top-level directory entries; it contains
every listed path; the synthetic entries are duplicate-free; and `e` is a
synthetic entry exactly when `e = d ++ "/"` for the first segment `d` of
some listed path with more than one `'/'`-separated segment. -/
theorem get_git_files_entries_spec :
    ∀ files : List String,
      (get_git_files_entries files).Perm (files ++ top_dirs files) ∧
      (∀ f ∈ files, f ∈ get_git_files_entries files) ∧
      (top_dirs files).Nodup ∧
      (∀ e, e ∈ top_dirs files ↔
        ∃ f ∈ files, 1 < (pySplitSlash f).length ∧
          e = (pySplitSlash f).getD 0 "" ++ "/") := by
  intro files
  have hperm : (get_git_files_entries files).Perm (files ++ top_dirs files) :=
    (List.perm_insertionSort gitLE _).trans List.perm_append_comm
  refine ⟨hperm, ?_, List.nodup_dedup _, ?_⟩
  · intro f hf
    exact hperm.mem_iff.mpr (List.mem_append_left _ hf)
  · intro e
    rw [top_dirs, List.mem_dedup, List.mem_filterMap]
    constructor
    · rintro ⟨f, hf, hsome⟩
      simp only [topDirOf] at hsome
      split_ifs at hsome with hlen
      exact ⟨f, hf, hlen, (Option.some_injective _ hsome).symm⟩
    · rintro ⟨f, hf, hlen, he⟩
      exact ⟨f, hf, by simp [topDirOf, hlen, he]⟩

/-! ## Claim C4: fuzzy-finder failure handling -/

/-- C4 fails on the code in the "cannot be run" half: when
`subprocess.run` raises (e.g. fzf is not installed), the selection step
does not return an empty list — it prints to stderr and exits the process
with status 1. -/
theorem interactive_file_selection_raise_counterexample :
    interactive_file_selection trivialEnv "." ["a.py"] (.raised "fzf not found") =
      .exit "Error running fzf: fzf not found" 1 ∧
    SelectionResult.exit "Error running fzf: fzf not found" 1 ≠
      .selection [] := by
  decide

/-- C4 (amended): when the fzf process runs and exits with a non-zero
status, the selection is the empty list and the program continues; but
when the fzf process cannot be run (the `subprocess.run` call raises), the
program prints `Error running fzf: ...` to stderr and terminates with exit
status 1. -/
theorem interactive_file_selection_failure_behaviour :
    (∀ (env : Env) (gitRoot : String) (files : List String) (rc : Int) (out : String),
      rc ≠ 0 →
      interactive_file_selection env gitRoot files (.ran rc out) = .selection []) ∧
    (∀ (env : Env) (gitRoot : String) (files : List String) (msg : String),
      interactive_file_selection env gitRoot files (.raised msg) =
        .exit ("Error running fzf: " ++ msg) 1) := by
  constructor
  · intro env gitRoot files rc out hrc
    simp [interactive_file_selection, hrc]
  · intro env gitRoot files msg
    rfl

/-- Witness for C4 (amended), at a concrete non-zero exit status. -/
theorem interactive_file_selection_failure_behaviour_witness :
    interactive_file_selection trivialEnv "." ["a.py"] (.ran 2 "") = .selection [] :=
  interactive_file_selection_failure_behaviour.1 trivialEnv "." ["a.py"] 2 ""
    (by decide)

/-! ## Claim C6: command assembly, display, and confirmation -/

/-- Unrolling the `aider_command` accumulation loop. -/
theorem foldl_file_args (final_files : List String) (acc : List String) :
    final_files.foldl (fun acc f => acc ++ ["--file", f]) acc =
      acc ++ final_files.flatMap (fun f => ["--file", f]) := by
  induction final_files generalizing acc with
  | nil => simp
  | cons f fs ih => simp [ih]

/-- C6: for a non-empty final list, the assembled command is exactly
`aider` followed by `--file p` for each path in order; the displayed line
is its space-join; and it is executed precisely when the lowercased
confirmation answer equals `"yes"`. -/
theorem main_aider_command_spec :
    ∀ (final_files : List String) (answer : String),
      final_files ≠ [] →
      build_aider_command final_files =
        "aider" :: final_files.flatMap (fun f => ["--file", f]) ∧
      main_confirm_step final_files answer =
        .prompt (" ".intercalate (build_aider_command final_files))
          (if pyLower answer = "yes" then some (build_aider_command final_files)
           else none) ∧
      ((∃ cmd, main_confirm_step final_files answer =
          .prompt (" ".intercalate (build_aider_command final_files)) (some cmd)) ↔
        pyLower answer = "yes") := by
  intro ff answer hff
  have hne : ff.isEmpty = false := by
    cases ff with
    | nil => cases hff rfl
    | cons f fs => rfl
  refine ⟨by simpa using foldl_file_args ff ["aider"], ?_, ?_, ?_⟩
  · simp [main_confirm_step, hne]
  · rintro ⟨cmd, hc⟩
    by_cases hyes : pyLower answer = "yes"
    · exact hyes
    · simp [main_confirm_step, hne, hyes] at hc
  · intro hyes
    exact ⟨build_aider_command ff, by simp [main_confirm_step, hne, hyes]⟩

/-- Witness for C6, at the final list `["a.py"]` and the answer `"YES"`
(which lowercases to `"yes"`, so the command runs). -/
theorem main_aider_command_spec_witness :
    build_aider_command ["a.py"] =
      "aider" :: (["a.py"].flatMap fun f => ["--file", f]) ∧
    main_confirm_step ["a.py"] "YES" =
      .prompt (" ".intercalate (build_aider_command ["a.py"]))
        (if pyLower "YES" = "yes" then some (build_aider_command ["a.py"]) else none) ∧
    ((∃ cmd, main_confirm_step ["a.py"] "YES" =
        .prompt (" ".intercalate (build_aider_command ["a.py"])) (some cmd)) ↔
      pyLower "YES" = "yes") :=
  main_aider_command_spec ["a.py"] "YES" (by decide)

end AiderCli
